import Mathlib

/-!
Shallow embedding of the control core of `cowfarg` (a ggez-based game):
the world grid (`src/game/world.rs`), the console logger, console command
execution, console open/close status, the master update loop and event
routing (`src/game/mod.rs`), and the input axes (`src/main.rs`).

Machine integers are modelled as `Nat` with an explicit `% 65536` where the
source's `u16` arithmetic can wrap or truncate.  Fallible operations
(panics) are modelled with `Option`.  External `ggez` values (text
fragments, cursors, rendered text height) are modelled as plain data, with
the rendered height of a fragment list kept as an explicit function
parameter since it depends on font metrics outside this repository.
-/

/- ===================== src/game/world.rs ===================== -/

/-- The material stored in each grid cell (`enum Material`). -/
inductive Material
  | Apples
  | Grains
  | Lumber
  | Ore
  | Sheeps
deriving DecidableEq, Repr

/-- `struct Grid { width: u16, mats: Vec<Material> }`.  `width` is a `u16`
in the source, modelled as `Nat` with `% 65536` applied where the source
performs `u16` arithmetic. -/
structure Grid where
  width : Nat
  mats : List Material
deriving DecidableEq, Repr

/-- `Grid::height`: `self.mats.len() as u16 / self.width`.  The `as u16`
cast truncates the length modulo 2^16; dividing by a zero `width` panics in
Rust, modelled as `none`. -/
def Grid.heightU (g : Grid) : Option Nat :=
  if g.width = 0 then none else some ((g.mats.length % 65536) / g.width)

/-- The insertion loop of `Grid::widen`: for `i` in `(1..=height).rev()`,
insert the default material at index `i * width` (all indices are `usize`
arithmetic, no wrapping). -/
def insertCol (w : Nat) : Nat → List Material → List Material
  | 0, l => l
  | i + 1, l => insertCol w i (l.insertIdx ((i + 1) * w) Material.Apples)

/-- `Grid::widen`: appends a column of the default material at the right
edge.  Calls `height()`, which panics when `width = 0` (division by zero),
hence the `Option`.  The final `self.width += 1` is `u16` arithmetic. -/
def Grid.widen (g : Grid) : Option Grid :=
  g.heightU.map fun h =>
    { width := (g.width + 1) % 65536, mats := insertCol g.width h g.mats }

/-- The removal loop of `Grid::thin`: for `i` in `(1..=height).rev()`,
remove index `i * width - 1` (the last cell of each row). -/
def removeCol (w : Nat) : Nat → List Material → List Material
  | 0, l => l
  | i + 1, l => removeCol w i (l.eraseIdx ((i + 1) * w - 1))

/-- `Grid::thin`: removes the rightmost column.  Returns early (before ever
calling `height()`) when `width <= 1`, so it is total. -/
def Grid.thin (g : Grid) : Grid :=
  if g.width ≤ 1 then g
  else
    { width := g.width - 1,
      mats := removeCol g.width ((g.mats.length % 65536) / g.width) g.mats }

/- ===================== ggez-side data (external collaborator) ============ -/

/-- `ggez::graphics::Color`, modelled with exact rationals in place of
`f32` (all colour constants used here are exactly representable). -/
structure GColor where
  r : ℚ
  g : ℚ
  b : ℚ
  a : ℚ
deriving DecidableEq, Repr

/-- `util::RED` -/
def RED : GColor := ⟨1, 0, 0, 1⟩
/-- `util::GREEN` -/
def GREEN : GColor := ⟨1/10, 7/10, 1/10, 1⟩
/-- `util::BLUE` -/
def BLUE : GColor := ⟨0, 0, 1, 1⟩

/-- A `ggez::graphics::TextFragment`: a piece of styled text. -/
structure TextFragment where
  text : String
  color : Option GColor
deriving DecidableEq, Repr

/-- A `ggez` mouse cursor icon (`MouseCursor`); only the default arrow is
distinguished by this core, other icons are opaque. -/
inductive MouseCursor
  | Default
  | Crosshair
  | Hand
  | Grab
deriving DecidableEq, Repr

/- ===================== ConsoleLogger (src/game/mod.rs) ================== -/

/-- `log::Level` -/
inductive LogLevel
  | Trace
  | Debug
  | Info
  | Warn
  | Error
deriving DecidableEq, Repr

/-- `ConsoleLogger::get_colour`: the fixed severity → colour table. -/
def getColour : LogLevel → Option GColor
  | .Trace => some BLUE
  | .Info => none
  | .Debug => some GREEN
  | .Warn => some ⟨1, 1, 0, 1⟩
  | .Error => some RED

/-- `ConsoleLogger::enabled`: only records whose target starts with
`cowfarg` are captured (`starts_with`, modelled character-wise). -/
def loggerEnabled (target : String) : Bool :=
  "cowfarg".data.isPrefixOf target.data

/-- `ConsoleLogger::log`: if enabled, append the formatted record (message
plus newline, coloured by severity) to the shared fragment buffer.  The
plain copy printed to stdout is not modelled. -/
def loggerLog (buf : List TextFragment) (target : String) (level : LogLevel)
    (msg : String) : List TextFragment :=
  if loggerEnabled target then buf ++ [⟨msg ++ "\n", getColour level⟩] else buf

/-- `ConsoleLogger::empty`: `mem::replace` the buffer with a fresh empty
vector and return the old contents.  First component: the drained
fragments; second: the buffer left behind. -/
def loggerEmpty (buf : List TextFragment) :
    List TextFragment × List TextFragment :=
  (buf, [])

/- ===================== Console / State (src/game/mod.rs) ================ -/

/-- `enum StateSwitch { Menu, Play }` -/
inductive StateSwitch
  | Menu
  | Play
deriving DecidableEq, Repr

/-- The console's editable state.  In the source `prompt` is a `PosText`
whose fragment 1 holds the editable string; `promptCap` models that
string's heap capacity (`String::capacity`), and `history` is the
scrollback `Text`'s fragment list. -/
structure Console where
  history : List TextFragment
  prompt : String
  promptCap : Nat
deriving DecidableEq, Repr

/-- The part of `struct State` this core's claims touch: the
pending-transition slot, viewport dimensions and mouse position.  The
asset/audio handles are opaque external collaborators and are omitted. -/
structure GState where
  switch_state : Option StateSwitch
  width : ℚ
  height : ℚ
  mouse : ℚ × ℚ
deriving DecidableEq, Repr

/-- `State::switch`: store the requested transition in the slot,
overwriting whatever was there. -/
def GState.switch (s : GState) (ss : StateSwitch) : GState :=
  { s with switch_state := some ss }

/-- The platform context bits this core mutates: `ctx.continuing` plus the
live mouse-cursor icon and hidden flag (`ggez::input::mouse`). -/
structure Ctx where
  continuing : Bool
  cursor : MouseCursor
  cursorHidden : Bool
deriving DecidableEq, Repr

/-- The mutable environment `Console::execute` runs in: the console itself,
the shared `State`, the platform context and the logger's shared fragment
buffer (commands report errors through the logging path). -/
structure ExecEnv where
  console : Console
  state : GState
  ctx : Ctx
  logbuf : List TextFragment
deriving DecidableEq, Repr

/-- Modelled from the spec: `Assets::raw_text_with` lives in
`src/io/tex.rs`, which is not among the sources here.  Per the spec,
`clear` "resets history to empty", so the text built from the empty string
is the empty fragment sequence; a nonempty string becomes one fragment. -/
def rawTextWith (s : String) : List TextFragment :=
  if s = "" then [] else [⟨s, none⟩]

/-- The message of the `warn!` in the unknown-command arm (the backquote
and quote that decorate the command name in the source format string are
kept). -/
def unknownCommandMsg (cmd : String) : String :=
  "  Unknown command `" ++ cmd ++ "'!"

/-- `Console::handle`: dispatch on `args[0]` (the `match` on string
literals is an equality chain, first match wins).  Every arm returns `Ok`,
so the `error!` fallback in `execute` is dead code.  The `info!`/`warn!`
macros log with this module's target `cowfarg::game`. -/
def Console.handle (e : ExecEnv) (args : List String) : ExecEnv :=
  let cmd := args.headD ""
  if cmd = "" then e
  else if cmd = "clear" then
    { e with console := { e.console with history := rawTextWith "" } }
  else if cmd = "reload" then
    { e with state := e.state.switch .Menu }
  else if cmd = "hello" then
    { e with logbuf := loggerLog e.logbuf "cowfarg::game" .Info "Hello!" }
  else if cmd = "quit" then
    { e with ctx := { e.ctx with continuing := false } }
  else
    { e with logbuf := loggerLog e.logbuf "cowfarg::game" .Warn (unknownCommandMsg cmd) }

/-- Rust `char::is_whitespace`: the Unicode `White_Space` property —
U+0009..U+000D, U+0020, U+0085, U+00A0, U+1680, U+2000..U+200A, U+2028,
U+2029, U+202F, U+205F and U+3000 (a strict superset of the ASCII
whitespace Lean's `Char.isWhitespace` checks). -/
def isRustWhitespace (c : Char) : Bool :=
  (0x09 ≤ c.toNat && c.toNat ≤ 0x0d) || c.toNat = 0x20 || c.toNat = 0x85 ||
    c.toNat = 0xa0 || c.toNat = 0x1680 ||
    (0x2000 ≤ c.toNat && c.toNat ≤ 0x200a) ||
    c.toNat = 0x2028 || c.toNat = 0x2029 || c.toNat = 0x202f ||
    c.toNat = 0x205f || c.toNat = 0x3000

/-- Rust `str::split(char::is_whitespace)`, collected: the pieces between
Unicode-whitespace characters, empty pieces kept, always at least one
piece.  Modelled character-wise with `List.splitOnP`, which has exactly
these semantics. -/
def tokenize (s : String) : List String :=
  (s.data.splitOnP isRustWhitespace).map List.asString

/-- The first whitespace-separated token of the prompt: `args[0]`
(`tokenize` never yields an empty list, so indexing is safe). -/
def firstToken (s : String) : String :=
  (tokenize s).headD ""

/-- `Console::execute`: echo the prompt into history prefixed with `"> "`,
replace the prompt with an empty string of the same capacity, tokenize the
old contents on whitespace and dispatch via `handle`. -/
def Console.execute (e : ExecEnv) : ExecEnv :=
  let prompt := e.console.prompt
  let echoed := e.console.history ++ [⟨"> " ++ prompt ++ "\n", none⟩]
  let args := tokenize prompt
  Console.handle
    { e with console := { history := echoed, prompt := "", promptCap := e.console.promptCap } }
    args

/- ===================== ConsoleStatus (src/game/mod.rs) ================== -/

/-- `enum ConsoleStatus { Open { cursor, cursor_hidden }, Closed }` -/
inductive ConsoleStatus
  | Open (cursor : MouseCursor) (cursor_hidden : Bool)
  | Closed
deriving DecidableEq, Repr

/-- `ConsoleStatus::is_open` -/
def ConsoleStatus.is_open : ConsoleStatus → Bool
  | .Open _ _ => true
  | .Closed => false

/-- `ConsoleStatus::open`: only when `Closed`, capture the platform's
current cursor icon and hidden flag and transition to `Open`.  It takes
`&Context`, so the context is never mutated. -/
def consoleOpen (cs : ConsoleStatus) (ctx : Ctx) : ConsoleStatus :=
  match cs with
  | .Closed => .Open ctx.cursor ctx.cursorHidden
  | s => s

/-- `ConsoleStatus::close`: `mem::replace` with `Closed`; if it was `Open`,
restore the captured cursor icon and hidden flag to the platform. -/
def consoleClose (cs : ConsoleStatus) (ctx : Ctx) : ConsoleStatus × Ctx :=
  match cs with
  | .Open c h => (.Closed, { ctx with cursor := c, cursorHidden := h })
  | .Closed => (.Closed, ctx)

/- ===================== Master (src/game/mod.rs) ========================= -/

/-- `const PROMPT_Y: f32 = 196.` (exact, so modelled as a rational). -/
def PROMPT_Y : ℚ := 196

/-- The whole mutable state `Master` owns apart from the active screen:
console, console status, shared state, platform context and the global
logger's fragment buffer. -/
structure MasterS where
  console : Console
  consoleStatus : ConsoleStatus
  state : GState
  ctx : Ctx
  logbuf : List TextFragment
deriving DecidableEq, Repr

/-- Rust `char::is_control`: the Unicode `Cc` category,
U+0000..U+001F and U+007F..U+009F. -/
def isControl (c : Char) : Bool :=
  c.toNat ≤ 0x1f || (0x7f ≤ c.toNat && c.toNat ≤ 0x9f)

/-- Lift `Console::execute` to the master state. -/
def executeM (m : MasterS) : MasterS :=
  let e := Console.execute ⟨m.console, m.state, m.ctx, m.logbuf⟩
  { m with console := e.console, state := e.state, ctx := e.ctx, logbuf := e.logbuf }

/-- `Master::text_input_event`.  `clip` is the outcome of the clipboard
collaborator (`ClipboardContext::new()` chained with `get_contents()`);
both calls are `.unwrap()`ed in the source, so a clipboard failure is a
panic, modelled as `none`.  All other paths return `some`.  (The source
renders the unknown-control-character notice with Rust debug escaping; here
the raw character is embedded.) -/
def textInputEvent (m : MasterS) (clip : Except Unit String) (c : Char) :
    Option MasterS :=
  if m.consoleStatus.is_open then
    if isControl c then
      if c = '\x08' then
        some { m with console := { m.console with prompt := m.console.prompt.dropRight 1 } }
      else if c = '\x7f' then
        some m
      else if c = '\x1b' then
        let p := consoleClose m.consoleStatus m.ctx
        some { m with consoleStatus := p.1, ctx := p.2 }
      else if c = '\x09' then
        some m
      else if c = '\x16' then
        match clip with
        | .ok s =>
          some { m with console := { m.console with prompt := m.console.prompt ++ s } }
        | .error _ => none
      else if c = '\x0d' then
        some (executeM m)
      else
        some { m with console := { m.console with
          history := m.console.history ++
            [⟨"Unknown control character " ++ String.singleton c ++ "\n", none⟩] } }
    else
      some { m with console := { m.console with prompt := m.console.prompt.push c } }
  else
    some m

/-- `Master::mouse_motion_event`: record the mouse position; while the
console is open, force the live cursor to the saved icon/hidden state when
the pointer is below the prompt line (`y > PROMPT_Y`), and to a default
visible arrow otherwise.  The stored `Open` payload is only read. -/
def mouseMotionEvent (m : MasterS) (x y : ℚ) : MasterS :=
  let m1 := { m with state := { m.state with mouse := (x, y) } }
  match m1.consoleStatus with
  | .Open c h =>
    if y > PROMPT_Y then
      { m1 with ctx := { m1.ctx with cursor := c, cursorHidden := h } }
    else
      { m1 with ctx := { m1.ctx with cursor := .Default, cursorHidden := false } }
  | .Closed => m1

/-- The claim's reading of `mouse_motion_event`, for comparison: the
boundary is the console panel's lower edge, which `Master::draw` places at
`height / 3` (the translucent panel is `Rect::new(0., 0., width,
height / 3.)`). -/
def mouseMotionClaimedC7 (m : MasterS) (x y : ℚ) : MasterS :=
  let m1 := { m with state := { m.state with mouse := (x, y) } }
  match m1.consoleStatus with
  | .Open c h =>
    if y > m1.state.height / 3 then
      { m1 with ctx := { m1.ctx with cursor := c, cursorHidden := h } }
    else
      { m1 with ctx := { m1.ctx with cursor := .Default, cursorHidden := false } }
  | .Closed => m1

/- ===================== Master::update (src/game/mod.rs) ================= -/

/-- The per-frame state `Master::update` manipulates, generic in the active
screen's type `G` (`Box<dyn GameState>`). -/
structure Frame (G : Type) where
  gs : G
  console : Console
  consoleStatus : ConsoleStatus
  state : GState
  ctx : Ctx
  logbuf : List TextFragment

/-- The history trim loop of `Master::update`: while the rendered height of
the history exceeds the budget (`PROMPT_Y as u32`), rebuild the history
from all fragments but the first (`fragments().iter().skip(1)` folded onto
a fresh empty text).  `height` is the external `ggez` text-height function,
kept as a parameter.  (If an empty text exceeded the budget the source loop
would not terminate; rendered empty text has height 0, and the bound
theorems assume `height [] ≤ budget`.) -/
def trimHistory (height : List TextFragment → Nat) (budget : Nat) :
    List TextFragment → List TextFragment
  | [] => []
  | f :: rest =>
    if height (f :: rest) > budget then trimHistory height budget rest
    else f :: rest

/-- The transition check at the top of `Master::update`: if the
pending-transition slot is set, take and clear it, reset the cursor to a
visible default arrow, and construct the named screen.  `menuNew` and
`playNew` stand for `Menu::new` / `Play::new` (their asset side effects and
`GameResult` failure propagation are external and not modelled here). -/
def masterTransition {G : Type} (menuNew playNew : G) (f : Frame G) : Frame G :=
  match f.state.switch_state with
  | some sw =>
    { f with
      ctx := { f.ctx with cursorHidden := false, cursor := .Default },
      state := { f.state with switch_state := none },
      gs := match sw with | .Menu => menuNew | .Play => playNew }
  | none => f

/-- The timestep half of `Master::update`.  `steps` is the number of whole
`1/60 s` units the fixed-timestep accumulator yields this frame
(`timer::check_update_time` succeeds exactly that many times).  Console
open: the accumulator is drained with an empty loop body, the logger is
drained into the history and the history re-trimmed.  Console closed: the
screen's `update` runs once per step and then `logic` runs once. -/
def masterTimestep {G : Type} (upd lgc : G → G)
    (height : List TextFragment → Nat) (steps : Nat) (f : Frame G) : Frame G :=
  if f.consoleStatus.is_open then
    { f with
      console := { f.console with
        history := trimHistory height 196 (f.console.history ++ (loggerEmpty f.logbuf).1) },
      logbuf := (loggerEmpty f.logbuf).2 }
  else
    { f with gs := lgc (upd^[steps] f.gs) }

/-- `Master::update`: transition check, then the timestep phase. -/
def masterUpdate {G : Type} (menuNew playNew : G) (upd lgc : G → G)
    (height : List TextFragment → Nat) (steps : Nat) (f : Frame G) : Frame G :=
  masterTimestep upd lgc height steps (masterTransition menuNew playNew f)

/- ===================== Input axes (src/main.rs) ========================= -/

/-- The movement-relevant `ggez` key codes (`KeyCode`); all others are
collapsed into `Other`. -/
inductive KeyCode
  | W
  | A
  | S
  | D
  | Up
  | Down
  | Left
  | Right
  | Other (n : Nat)
deriving DecidableEq, Repr

/-- A raw key transition delivered by the platform. -/
inductive KeyEvent
  | down (k : KeyCode)
  | up (k : KeyCode)
deriving DecidableEq, Repr

/-- The pressed-keys set `ggez::input::keyboard` maintains (a `HashSet`:
key-down inserts, key-up removes; inserting a present key and removing an
absent key are no-ops). -/
def applyKeyEvent (ks : List KeyCode) : KeyEvent → List KeyCode
  | .down k => if k ∈ ks then ks else k :: ks
  | .up k => ks.erase k

/-- `keyboard::is_key_pressed` against the modelled pressed set. -/
def isKeyPressed (ks : List KeyCode) (k : KeyCode) : Bool :=
  ks.contains k

/-- `util::ver`: `(S || Down) as i8 - (W || Up) as i8` (the `f32`
conversion of a small integer is exact, so the result is kept as `Int`). -/
def ver (ks : List KeyCode) : Int :=
  (if isKeyPressed ks .S || isKeyPressed ks .Down then 1 else 0) -
    (if isKeyPressed ks .W || isKeyPressed ks .Up then 1 else 0)

/-- `util::hor`: `(D || Right) as i8 - (A || Left) as i8`. -/
def hor (ks : List KeyCode) : Int :=
  (if isKeyPressed ks .D || isKeyPressed ks .Right then 1 else 0) -
    (if isKeyPressed ks .A || isKeyPressed ks .Left then 1 else 0)

/- ===================== Helper lemmas ==================================== -/

/-- `Console::handle` on a `reload` first token: only the pending-transition
slot changes. -/
theorem handle_headD_reload (e : ExecEnv) (args : List String)
    (h : args.headD "" = "reload") :
    Console.handle e args = { e with state := e.state.switch .Menu } := by
  rw [List.headD_eq_head?] at h
  unfold Console.handle
  simp [h]

/-- `masterTransition` never touches the console status. -/
theorem masterTransition_consoleStatus {G : Type} (menuNew playNew : G)
    (f : Frame G) :
    (masterTransition menuNew playNew f).consoleStatus = f.consoleStatus := by
  unfold masterTransition
  cases f.state.switch_state <;> rfl

/-- Each axis value is one of -1, 0, 1, whatever the pressed-key set is. -/
theorem ver_range (ks : List KeyCode) :
    ver ks = -1 ∨ ver ks = 0 ∨ ver ks = 1 := by
  unfold ver
  split <;> split <;> norm_num

/-- Each axis value is one of -1, 0, 1, whatever the pressed-key set is. -/
theorem hor_range (ks : List KeyCode) :
    hor ks = -1 ∨ hor ks = 0 ∨ hor ks = 1 := by
  unfold hor
  split <;> split <;> norm_num

/-- The trim loop stops only at or below the budget (given that an empty
history is within budget). -/
theorem trimHistory_height_le (hfn : List TextFragment → Nat) (budget : Nat)
    (hb : hfn [] ≤ budget) :
    ∀ l : List TextFragment, hfn (trimHistory hfn budget l) ≤ budget := by
  intro l
  induction l with
  | nil => simpa [trimHistory] using hb
  | cons f rest ih =>
    unfold trimHistory
    split
    · exact ih
    · omega

/-- The trim loop only ever drops fragments from the front: the result is a
suffix of the input. -/
theorem trimHistory_suffix (hfn : List TextFragment → Nat) (budget : Nat) :
    ∀ l : List TextFragment, trimHistory hfn budget l <:+ l := by
  intro l
  induction l with
  | nil => exact List.suffix_refl []
  | cons f rest ih =>
    unfold trimHistory
    split
    · exact ih.trans (List.suffix_cons f rest)
    · exact List.suffix_refl _

/- ===================== Claim theorems =================================== -/

/-- C8: `ConsoleLogger::empty` moves the buffer's contents out and leaves
it empty; two consecutive drains with no intervening log calls yield the
full buffered sequence the first time and an empty sequence the second
time. -/
theorem C8_drain_destructive (buf : List TextFragment) :
    (loggerEmpty buf).1 = buf ∧ (loggerEmpty buf).2 = [] ∧
      (loggerEmpty (loggerEmpty buf).2).1 = [] :=
  ⟨rfl, rfl, rfl⟩

/-- C2: `State::switch` leaves exactly one pending transition (the slot is
an `Option`, last write wins, no queue), and executing `reload` through the
console leaves the slot holding exactly `Menu`, whatever it held before. -/
theorem C2_reload_single_transition (st : GState) (a b : StateSwitch)
    (e : ExecEnv) (h : firstToken e.console.prompt = "reload") :
    (st.switch a).switch_state = some a ∧
      ((st.switch a).switch b).switch_state = some b ∧
      (Console.execute e).state.switch_state = some StateSwitch.Menu := by
  refine ⟨rfl, rfl, ?_⟩
  unfold Console.execute
  rw [handle_headD_reload _ _ h]
  simp [GState.switch]

theorem C2_reload_single_transition_witness :
    firstToken "reload" = "reload" ∧
      (Console.execute ⟨⟨[], "reload", 32⟩, ⟨some StateSwitch.Play, 1152, 648, (0, 0)⟩,
          ⟨true, .Default, false⟩, []⟩).state.switch_state = some StateSwitch.Menu := by
  refine ⟨by decide, ?_⟩
  exact (C2_reload_single_transition ⟨none, 0, 0, (0, 0)⟩ .Menu .Menu _ (by decide)).2.2

/-- C6: opening the console when already open is a no-op (the saved cursor
payload is untouched, and `open` takes the context immutably); closing when
already closed is a no-op; and after an `open` (capturing the pre-open
cursor) followed by a `close` under an arbitrarily changed context, the
platform cursor icon and hidden flag are exactly the pre-open values. -/
theorem C6_open_close_cursor (c : MouseCursor) (hd : Bool) (ctx ctx2 : Ctx) :
    consoleOpen (.Open c hd) ctx = .Open c hd ∧
      consoleClose .Closed ctx = (.Closed, ctx) ∧
      consoleClose (consoleOpen .Closed ctx) ctx2 =
        (.Closed, { ctx2 with cursor := ctx.cursor, cursorHidden := ctx.cursorHidden }) :=
  ⟨rfl, rfl, rfl⟩

/-- C9: over any sequence of raw movement key events folded into the
pressed-key set, both axes stay in `{-1, 0, 1}` relative to the
currently-held keys, and a release of a key that is not held leaves the
set (and hence the axes) unchanged — no drift from unmatched events. -/
theorem C9_axes_no_drift (evs : List KeyEvent) (ks : List KeyCode)
    (k : KeyCode) (h : k ∉ ks) :
    (ver (evs.foldl applyKeyEvent []) = -1 ∨ ver (evs.foldl applyKeyEvent []) = 0 ∨
        ver (evs.foldl applyKeyEvent []) = 1) ∧
      (hor (evs.foldl applyKeyEvent []) = -1 ∨ hor (evs.foldl applyKeyEvent []) = 0 ∨
        hor (evs.foldl applyKeyEvent []) = 1) ∧
      applyKeyEvent ks (.up k) = ks := by
  refine ⟨ver_range _, hor_range _, ?_⟩
  show ks.erase k = ks
  exact List.erase_of_not_mem h

theorem C9_axes_no_drift_witness :
    (KeyCode.W ∉ ([.S] : List KeyCode)) ∧
      (ver ([KeyEvent.down .S, KeyEvent.up .W].foldl applyKeyEvent []) = -1 ∨
        ver ([KeyEvent.down .S, KeyEvent.up .W].foldl applyKeyEvent []) = 0 ∨
        ver ([KeyEvent.down .S, KeyEvent.up .W].foldl applyKeyEvent []) = 1) ∧
      applyKeyEvent [.S] (.up .W) = [.S] := by
  refine ⟨by decide, ?_, ?_⟩
  · exact (C9_axes_no_drift [KeyEvent.down .S, KeyEvent.up .W] [.S] .W (by decide)).1
  · exact (C9_axes_no_drift [KeyEvent.down .S, KeyEvent.up .W] [.S] .W (by decide)).2.2

/-- C4: after the trim loop of `Master::update`, the rendered history
height is within the budget (assuming the empty history renders within
budget), and the surviving fragments are a suffix of the input — eviction
is FIFO, oldest first, never the newest. -/
theorem C4_history_bounded_fifo (hfn : List TextFragment → Nat) (budget : Nat)
    (l : List TextFragment) (hb : hfn [] ≤ budget) :
    hfn (trimHistory hfn budget l) ≤ budget ∧ trimHistory hfn budget l <:+ l :=
  ⟨trimHistory_height_le hfn budget hb l, trimHistory_suffix hfn budget l⟩

/-- A concrete 12-line history, each line 20 units tall. -/
def tallHistory : List TextFragment :=
  (List.range 12).map fun i => ⟨toString i ++ "\n", none⟩

theorem C4_history_bounded_fifo_witness :
    (fun l : List TextFragment => 20 * l.length) [] ≤ 196 ∧
      (fun l : List TextFragment => 20 * l.length)
          (trimHistory (fun l => 20 * l.length) 196 tallHistory) ≤ 196 ∧
        trimHistory (fun l => 20 * l.length) 196 tallHistory <:+ tallHistory := by
  refine ⟨by decide, ?_⟩
  exact C4_history_bounded_fifo (fun l => 20 * l.length) 196 tallHistory (by decide)

/-- C5: in `Master::update`, after the transition check: while the console
is open the fixed-timestep accumulator is drained without the screen's
`update` (or `logic`) ever being invoked — the screen is exactly what the
transition check left, for arbitrary `upd`/`lgc` and step count — and the
captured log fragments are drained into the (re-trimmed) history, leaving
the log buffer empty; while the console is closed, `update` runs once per
whole elapsed fixed-timestep unit and `logic` exactly once, and the console
and log buffer are untouched. -/
theorem C5_frozen_or_stepped {G : Type} (menuNew playNew : G) (upd lgc : G → G)
    (hfn : List TextFragment → Nat) (steps : Nat) (f : Frame G) :
    (f.consoleStatus.is_open = true →
        (masterUpdate menuNew playNew upd lgc hfn steps f).gs =
            (masterTransition menuNew playNew f).gs ∧
          (masterUpdate menuNew playNew upd lgc hfn steps f).console.history =
            trimHistory hfn 196
              ((masterTransition menuNew playNew f).console.history ++
                (masterTransition menuNew playNew f).logbuf) ∧
          (masterUpdate menuNew playNew upd lgc hfn steps f).logbuf = []) ∧
      (f.consoleStatus.is_open = false →
        (masterUpdate menuNew playNew upd lgc hfn steps f).gs =
            lgc (upd^[steps] (masterTransition menuNew playNew f).gs) ∧
          (masterUpdate menuNew playNew upd lgc hfn steps f).console =
            (masterTransition menuNew playNew f).console ∧
          (masterUpdate menuNew playNew upd lgc hfn steps f).logbuf =
            (masterTransition menuNew playNew f).logbuf) := by
  unfold masterUpdate masterTimestep
  rw [masterTransition_consoleStatus]
  constructor <;> intro h <;> simp [h, loggerEmpty]

/-- A concrete frame with the console open, a pending `Play` transition and
two buffered log fragments. -/
def frameOpen : Frame Nat :=
  { gs := 7, console := ⟨[⟨"old\n", none⟩], "", 32⟩, consoleStatus := .Open .Crosshair true,
    state := ⟨some .Play, 1152, 648, (0, 0)⟩, ctx := ⟨true, .Default, false⟩,
    logbuf := [⟨"a\n", none⟩, ⟨"b\n", some RED⟩] }

theorem C5_frozen_or_stepped_witness :
    (masterUpdate 0 1 Nat.succ (fun n => n + 100) (fun l => l.length) 5 frameOpen).gs =
        (masterTransition 0 1 frameOpen).gs ∧
      (masterUpdate 0 1 Nat.succ (fun n => n + 100) (fun l => l.length) 5 frameOpen).logbuf = [] := by
  have h := (C5_frozen_or_stepped 0 1 Nat.succ (fun n => n + 100)
    (fun l => l.length) 5 frameOpen).1 (by decide)
  exact ⟨h.1, h.2.2⟩

/-- A concrete master state with the console open over the default 1152x648
window, the saved cursor being a hidden crosshair. -/
def mOpen : MasterS :=
  { console := ⟨[], "", 32⟩, consoleStatus := .Open .Crosshair true,
    state := ⟨none, 1152, 648, (0, 0)⟩, ctx := ⟨true, .Default, false⟩, logbuf := [] }

/-- C7 fails as stated: at the default 648-pixel-high window the console
panel's lower edge is at `648 / 3 = 216`, but the source compares against
the fixed prompt line `PROMPT_Y = 196`.  At `y = 200` — inside the console
panel — the code forces the saved (hidden crosshair) cursor, while the
claim demands a default visible arrow. -/
theorem C7_counterexample :
    (200 : ℚ) ≤ mOpen.state.height / 3 ∧
      (mouseMotionEvent mOpen 0 200).ctx.cursorHidden = true ∧
      (mouseMotionEvent mOpen 0 200).ctx.cursor = .Crosshair ∧
      (mouseMotionClaimedC7 mOpen 0 200).ctx.cursorHidden = false ∧
      (mouseMotionClaimedC7 mOpen 0 200).ctx.cursor = .Default ∧
      mouseMotionEvent mOpen 0 200 ≠ mouseMotionClaimedC7 mOpen 0 200 := by
  have h1 : (mouseMotionEvent mOpen 0 200).ctx.cursorHidden = true := by
    norm_num [mouseMotionEvent, mOpen, PROMPT_Y]
  have h2 : (mouseMotionClaimedC7 mOpen 0 200).ctx.cursorHidden = false := by
    norm_num [mouseMotionClaimedC7, mOpen]
  refine ⟨by norm_num [mOpen], h1, ?_, h2, ?_, ?_⟩
  · norm_num [mouseMotionEvent, mOpen, PROMPT_Y]
  · norm_num [mouseMotionClaimedC7, mOpen]
  · intro hEq
    rw [congrArg (fun m => m.ctx.cursorHidden) hEq] at h1
    rw [h1] at h2
    simp at h2

/-- C7 amended: while the console is open, every mouse-movement event
forces the live cursor to the saved icon/hidden state when the vertical
position is below the fixed prompt line (`y > PROMPT_Y = 196`, not the
panel's lower edge), and to a default visible arrow when at or above it;
the stored `Open` payload and the rest of the context are unchanged, and
the mouse position is recorded. -/
theorem C7_cursor_vs_prompt_line (m : MasterS) (x y : ℚ) (c : MouseCursor)
    (hd : Bool) (h : m.consoleStatus = .Open c hd) :
    (y > PROMPT_Y →
        (mouseMotionEvent m x y).ctx.cursor = c ∧
          (mouseMotionEvent m x y).ctx.cursorHidden = hd) ∧
      (y ≤ PROMPT_Y →
        (mouseMotionEvent m x y).ctx.cursor = .Default ∧
          (mouseMotionEvent m x y).ctx.cursorHidden = false) ∧
      (mouseMotionEvent m x y).consoleStatus = m.consoleStatus ∧
      (mouseMotionEvent m x y).state.mouse = (x, y) ∧
      (mouseMotionEvent m x y).ctx.continuing = m.ctx.continuing := by
  unfold mouseMotionEvent
  rw [h]
  by_cases hy : y > PROMPT_Y
  · simp [hy]
  · simp [hy, not_lt.mp hy]

theorem C7_cursor_vs_prompt_line_witness :
    ((200 : ℚ) > PROMPT_Y →
        (mouseMotionEvent mOpen 0 200).ctx.cursor = .Crosshair ∧
          (mouseMotionEvent mOpen 0 200).ctx.cursorHidden = true) ∧
      (mouseMotionEvent mOpen 0 200).state.mouse = (0, 200) := by
  have h := C7_cursor_vs_prompt_line mOpen 0 200 .Crosshair true rfl
  exact ⟨h.1, h.2.2.2.1⟩

/-- C3 fails as stated: while the console is open, the paste control
character with a failed clipboard read does not log-and-continue — the
source `.unwrap()`s the clipboard result, so the handler panics (`none`). -/
theorem C3_counterexample :
    mOpen.consoleStatus.is_open = true ∧
      textInputEvent mOpen (Except.error ()) '\x16' = none :=
  ⟨rfl, rfl⟩

/-- C3 amended: while the console is open, the paste control character
panics (unwinds out of the text-input handler) whenever the clipboard read
fails, and on success appends the clipboard contents to the prompt and
continues. -/
theorem C3_paste_unwrap (m : MasterS) (s : String)
    (hopen : m.consoleStatus.is_open = true) :
    textInputEvent m (Except.error ()) '\x16' = none ∧
      textInputEvent m (Except.ok s) '\x16' =
        some { m with console := { m.console with prompt := m.console.prompt ++ s } } := by
  unfold textInputEvent
  simp [hopen, isControl]

theorem C3_paste_unwrap_witness :
    mOpen.consoleStatus.is_open = true ∧
      textInputEvent mOpen (Except.ok "abc") '\x16' =
        some { mOpen with console := { mOpen.console with
          prompt := mOpen.console.prompt ++ "abc" } } :=
  ⟨rfl, (C3_paste_unwrap mOpen "abc" rfl).2⟩

/-- `Console::handle` on an empty first token: a no-op. -/
theorem handle_headD_empty (e : ExecEnv) (args : List String)
    (h : args.headD "" = "") : Console.handle e args = e := by
  rw [List.headD_eq_head?] at h
  unfold Console.handle
  simp [h]

/-- `Console::handle` on `clear`: the history is replaced by the empty
text, everything else untouched. -/
theorem handle_headD_clear (e : ExecEnv) (args : List String)
    (h : args.headD "" = "clear") :
    Console.handle e args = { e with console := { e.console with history := [] } } := by
  rw [List.headD_eq_head?] at h
  unfold Console.handle
  simp [h, rawTextWith]

/-- `Console::handle` on `hello`: logs the greeting. -/
theorem handle_headD_hello (e : ExecEnv) (args : List String)
    (h : args.headD "" = "hello") :
    Console.handle e args = { e with logbuf := e.logbuf ++ [⟨"Hello!\n", none⟩] } := by
  rw [List.headD_eq_head?] at h
  unfold Console.handle
  simp [h, loggerLog, getColour, show loggerEnabled "cowfarg::game" = true from by decide]

/-- `Console::handle` on `quit`: clears `ctx.continuing`. -/
theorem handle_headD_quit (e : ExecEnv) (args : List String)
    (h : args.headD "" = "quit") :
    Console.handle e args =
      { e with ctx := { e.ctx with continuing := false } } := by
  rw [List.headD_eq_head?] at h
  unfold Console.handle
  simp [h]

/-- `Console::handle` on any other verb: logs the unknown-command warning
(yellow, per the severity colour table). -/
theorem handle_headD_unknown (e : ExecEnv) (args : List String)
    (h0 : args.headD "" ≠ "") (h1 : args.headD "" ≠ "clear")
    (h2 : args.headD "" ≠ "reload") (h3 : args.headD "" ≠ "hello")
    (h4 : args.headD "" ≠ "quit") :
    Console.handle e args =
      { e with logbuf := e.logbuf ++
        [⟨unknownCommandMsg (args.headD "") ++ "\n", some ⟨1, 1, 0, 1⟩⟩] } := by
  rw [List.headD_eq_head?] at h0 h1 h2 h3 h4 ⊢
  unfold Console.handle
  simp [h0, h1, h2, h3, h4, loggerLog, getColour,
    show loggerEnabled "cowfarg::game" = true from by decide]

/-- `Console::handle` never touches the prompt or its capacity. -/
theorem handle_prompt_eq (e : ExecEnv) (args : List String) :
    (Console.handle e args).console.prompt = e.console.prompt ∧
      (Console.handle e args).console.promptCap = e.console.promptCap := by
  by_cases h0 : args.headD "" = ""
  · rw [handle_headD_empty _ _ h0]; exact ⟨rfl, rfl⟩
  · by_cases h1 : args.headD "" = "clear"
    · rw [handle_headD_clear _ _ h1]; exact ⟨rfl, rfl⟩
    · by_cases h2 : args.headD "" = "reload"
      · rw [handle_headD_reload _ _ h2]; exact ⟨rfl, rfl⟩
      · by_cases h3 : args.headD "" = "hello"
        · rw [handle_headD_hello _ _ h3]; exact ⟨rfl, rfl⟩
        · by_cases h4 : args.headD "" = "quit"
          · rw [handle_headD_quit _ _ h4]; exact ⟨rfl, rfl⟩
          · rw [handle_headD_unknown _ _ h0 h1 h2 h3 h4]; exact ⟨rfl, rfl⟩

/-- `Console::execute` is `handle` after echoing and clearing the prompt. -/
theorem execute_eq_handle (e : ExecEnv) :
    Console.execute e =
      Console.handle
        { e with console :=
          { history := e.console.history ++ [⟨"> " ++ e.console.prompt ++ "\n", none⟩],
            prompt := "", promptCap := e.console.promptCap } }
        (tokenize e.console.prompt) := rfl

/-- A console whose prompt holds the `hello` verb. -/
def eHello : ExecEnv :=
  ⟨⟨[], "hello", 32⟩, ⟨none, 1152, 648, (0, 0)⟩, ⟨true, .Default, false⟩, []⟩

/-- C1 fails as stated: the dispatch table also recognizes `hello`, which
logs the greeting `Hello!` instead of the unknown-command diagnostic the
claim demands for "any other verb". -/
theorem C1_counterexample :
    (Console.execute eHello).logbuf = [⟨"Hello!\n", none⟩] ∧
      (⟨"Hello!\n", none⟩ : TextFragment) ≠
        ⟨unknownCommandMsg "hello" ++ "\n", some ⟨1, 1, 0, 1⟩⟩ ∧
      firstToken eHello.console.prompt ∉ (["", "clear", "reload", "quit"] : List String) := by
  refine ⟨?_, by decide, by decide⟩
  rw [execute_eq_handle, handle_headD_hello _ _ (by decide)]
  rfl

/-- C1 amended: `execute` echoes the prompt into history prefixed with
`"> "`, replaces the prompt with an empty buffer of the same capacity,
tokenizes on whitespace, and dispatches on the first token: empty input is
a no-op, `clear` resets history to empty, `reload` enqueues a transition to
the Menu screen, `quit` requests process termination, `hello` logs a
greeting, and any other verb emits the unknown-command diagnostic through
the logging path (total, so no branch panics or aborts). -/
theorem C1_execute_dispatch (e : ExecEnv) :
    (Console.execute e).console.prompt = "" ∧
      (Console.execute e).console.promptCap = e.console.promptCap ∧
      (firstToken e.console.prompt ≠ "clear" →
        (Console.execute e).console.history =
          e.console.history ++ [⟨"> " ++ e.console.prompt ++ "\n", none⟩]) ∧
      (firstToken e.console.prompt = "" →
        (Console.execute e).state = e.state ∧ (Console.execute e).ctx = e.ctx ∧
          (Console.execute e).logbuf = e.logbuf) ∧
      (firstToken e.console.prompt = "clear" →
        (Console.execute e).console.history = [] ∧ (Console.execute e).state = e.state ∧
          (Console.execute e).ctx = e.ctx ∧ (Console.execute e).logbuf = e.logbuf) ∧
      (firstToken e.console.prompt = "reload" →
        (Console.execute e).state.switch_state = some StateSwitch.Menu ∧
          (Console.execute e).ctx = e.ctx ∧ (Console.execute e).logbuf = e.logbuf) ∧
      (firstToken e.console.prompt = "hello" →
        (Console.execute e).logbuf = e.logbuf ++ [⟨"Hello!\n", none⟩] ∧
          (Console.execute e).state = e.state ∧ (Console.execute e).ctx = e.ctx) ∧
      (firstToken e.console.prompt = "quit" →
        (Console.execute e).ctx = { e.ctx with continuing := false } ∧
          (Console.execute e).state = e.state ∧ (Console.execute e).logbuf = e.logbuf) ∧
      (firstToken e.console.prompt ≠ "" → firstToken e.console.prompt ≠ "clear" →
        firstToken e.console.prompt ≠ "reload" → firstToken e.console.prompt ≠ "hello" →
        firstToken e.console.prompt ≠ "quit" →
        (Console.execute e).logbuf =
          e.logbuf ++ [⟨unknownCommandMsg (firstToken e.console.prompt) ++ "\n", some ⟨1, 1, 0, 1⟩⟩] ∧
          (Console.execute e).state = e.state ∧ (Console.execute e).ctx = e.ctx) := by
  rw [execute_eq_handle]
  refine ⟨(handle_prompt_eq _ _).1, (handle_prompt_eq _ _).2, ?_, ?_, ?_, ?_, ?_, ?_, ?_⟩
  · intro hne
    by_cases h0 : firstToken e.console.prompt = ""
    · rw [handle_headD_empty _ _ h0]
    · by_cases h2 : firstToken e.console.prompt = "reload"
      · rw [handle_headD_reload _ _ h2]
      · by_cases h3 : firstToken e.console.prompt = "hello"
        · rw [handle_headD_hello _ _ h3]
        · by_cases h4 : firstToken e.console.prompt = "quit"
          · rw [handle_headD_quit _ _ h4]
          · rw [handle_headD_unknown _ _ h0 hne h2 h3 h4]
  · intro h
    rw [handle_headD_empty _ _ h]
    exact ⟨rfl, rfl, rfl⟩
  · intro h
    rw [handle_headD_clear _ _ h]
    exact ⟨rfl, rfl, rfl, rfl⟩
  · intro h
    rw [handle_headD_reload _ _ h]
    exact ⟨rfl, rfl, rfl⟩
  · intro h
    rw [handle_headD_hello _ _ h]
    exact ⟨rfl, rfl, rfl⟩
  · intro h
    rw [handle_headD_quit _ _ h]
    exact ⟨rfl, rfl, rfl⟩
  · intro h0 h1 h2 h3 h4
    rw [handle_headD_unknown _ _ h0 h1 h2 h3 h4]
    exact ⟨rfl, rfl, rfl⟩

/-- A console whose prompt holds an unrecognized verb with an argument. -/
def eFoo : ExecEnv :=
  ⟨⟨[], "foo bar", 32⟩, ⟨none, 1152, 648, (0, 0)⟩, ⟨true, .Default, false⟩, []⟩

theorem C1_execute_dispatch_witness :
    firstToken eFoo.console.prompt = "foo" ∧
      (Console.execute eFoo).console.prompt = "" ∧
      (Console.execute eFoo).logbuf =
        eFoo.logbuf ++ [⟨unknownCommandMsg (firstToken eFoo.console.prompt) ++ "\n",
          some ⟨1, 1, 0, 1⟩⟩] := by
  have h := C1_execute_dispatch eFoo
  refine ⟨by decide, h.1, ?_⟩
  exact (h.2.2.2.2.2.2.2.2 (by decide) (by decide) (by decide) (by decide) (by decide)).1

/-- The widening loop performs one valid insertion per row, so it grows the
list by exactly the number of rows. -/
theorem insertCol_length (w : Nat) :
    ∀ (i : Nat) (l : List Material), i * w ≤ l.length →
      (insertCol w i l).length = l.length + i := by
  intro i
  induction i with
  | zero => intro l _; rfl
  | succ i ih =>
    intro l hle
    have hiw : i * w ≤ (i + 1) * w := Nat.mul_le_mul_right w (Nat.le_succ i)
    have hlen : (l.insertIdx ((i + 1) * w) Material.Apples).length = l.length + 1 :=
      List.length_insertIdx _ _ hle
    unfold insertCol
    rw [ih _ (by rw [hlen]; exact le_trans hiw (Nat.le_succ_of_le hle)), hlen]
    omega

/-- Inserting above all of the widening loop's working positions commutes
with the loop, the insertion position shifting by one per loop step. -/
theorem insertCol_insertIdx (w : Nat) (a : Material) :
    ∀ (i : Nat) (l : List Material) (p : Nat), i * w ≤ p → p ≤ l.length →
      insertCol w i (l.insertIdx p a) = (insertCol w i l).insertIdx (p + i) a := by
  intro i
  induction i with
  | zero => intro l p _ _; rfl
  | succ i ih =>
    intro l p hp hpl
    have hq : (i + 1) * w ≤ p := hp
    have hiw : i * w ≤ (i + 1) * w := Nat.mul_le_mul_right w (Nat.le_succ i)
    unfold insertCol
    rw [← List.insertIdx_comm Material.Apples a ((i + 1) * w) p l hq hpl,
      ih (l.insertIdx ((i + 1) * w) Material.Apples) (p + 1)
        (le_trans hiw (Nat.le_succ_of_le hq))
        (by rw [List.length_insertIdx _ _ (le_trans hq hpl)]; omega)]
    congr 1
    omega

/-- The thinning loop of `thin` (with the incremented width) undoes the
widening loop of `widen` exactly. -/
theorem removeCol_insertCol (w : Nat) :
    ∀ (i : Nat) (l : List Material), i * w ≤ l.length →
      removeCol (w + 1) i (insertCol w i l) = l := by
  intro i
  induction i with
  | zero => intro l _; rfl
  | succ i ih =>
    intro l hle
    have hq : (i + 1) * w ≤ l.length := hle
    have hiw : i * w ≤ (i + 1) * w := Nat.mul_le_mul_right w (Nat.le_succ i)
    unfold insertCol removeCol
    rw [insertCol_insertIdx w Material.Apples i l ((i + 1) * w) hiw hq]
    have hexp : (i + 1) * (w + 1) = (i + 1) * w + i + 1 := by ring
    have hidx : (i + 1) * (w + 1) - 1 = (i + 1) * w + i := by omega
    rw [hidx, List.eraseIdx_insertIdx ((i + 1) * w + i) (insertCol w i l)]
    exact ih l (le_trans hiw hq)

/-- C10 fails as stated: a zero-width grid (constructible via
`Grid::new(0, h)`) makes `widen` divide by zero in `height()` — a panic,
not a round trip. -/
theorem C10_counterexample :
    (Grid.widen ⟨0, []⟩).map Grid.thin ≠ some (⟨0, []⟩ : Grid) := by decide

/-- C10 amended: for every grid whose width is at least 1 (so `height()`
does not divide by zero), at most 65534 (so the `u16` width increment does
not wrap), and whose cell count plus row count stays below 2^16 (so the
`len as u16` truncation in `height()` is exact), `widen` followed by `thin`
returns the original grid: `widen` appends one default-material cell at the
end of each row and `thin` removes exactly those again. -/
theorem C10_widen_thin_roundtrip (g : Grid) (h1 : 1 ≤ g.width)
    (h2 : g.width ≤ 65534)
    (h3 : g.mats.length + g.mats.length / g.width < 65536) :
    (Grid.widen g).map Grid.thin = some g := by
  obtain ⟨w, mats⟩ := g
  simp only at h1 h2 h3
  have hw0 : ¬ w = 0 := by omega
  have hL : mats.length < 65536 := lt_of_le_of_lt (Nat.le_add_right _ _) h3
  have hmodL : mats.length % 65536 = mats.length := Nat.mod_eq_of_lt hL
  have hmodw : (w + 1) % 65536 = w + 1 := Nat.mod_eq_of_lt (by omega)
  have hhw : (mats.length / w) * w ≤ mats.length := Nat.div_mul_le_self _ _
  have hlen2 : (insertCol w (mats.length / w) mats).length =
      mats.length + mats.length / w := insertCol_length w _ mats hhw
  have hLh : mats.length + mats.length / w < 65536 := h3
  unfold Grid.widen Grid.heightU
  simp only [hw0, if_false, Option.map_some, Option.map_some']
  rw [hmodL]
  refine congrArg some ?_
  unfold Grid.thin
  dsimp only
  rw [hmodw, if_neg (by omega : ¬ w + 1 ≤ 1), hlen2, Nat.mod_eq_of_lt hLh]
  have hdiv : (mats.length + mats.length / w) / (w + 1) = mats.length / w := by
    have hr : mats.length % w < w := Nat.mod_lt _ (by omega)
    have hdm : w * (mats.length / w) + mats.length % w = mats.length :=
      Nat.div_add_mod _ _
    have hexp : (w + 1) * (mats.length / w) = w * (mats.length / w) + mats.length / w := by
      ring
    have hsum : mats.length + mats.length / w =
        mats.length % w + (w + 1) * (mats.length / w) := by omega
    rw [hsum, Nat.add_mul_div_left _ _ (by omega : 0 < w + 1),
      Nat.div_eq_of_lt (lt_trans hr (by omega))]
    omega
  rw [hdiv, removeCol_insertCol w _ mats hhw]
  norm_num

theorem C10_widen_thin_roundtrip_witness :
    1 ≤ (Grid.mk 2 [.Apples, .Grains, .Lumber, .Ore]).width ∧
      (Grid.mk 2 [.Apples, .Grains, .Lumber, .Ore]).width ≤ 65534 ∧
      (Grid.mk 2 [.Apples, .Grains, .Lumber, .Ore]).mats.length +
          (Grid.mk 2 [.Apples, .Grains, .Lumber, .Ore]).mats.length /
            (Grid.mk 2 [.Apples, .Grains, .Lumber, .Ore]).width < 65536 ∧
      (Grid.widen (Grid.mk 2 [.Apples, .Grains, .Lumber, .Ore])).map Grid.thin =
        some (Grid.mk 2 [.Apples, .Grains, .Lumber, .Ore]) := by
  refine ⟨by decide, by decide, by decide, ?_⟩
  exact C10_widen_thin_roundtrip _ (by decide) (by decide) (by decide)
